import Mathlib

/-!
Verification of the conversion orchestrator of the `pdf-to-html-converter`
repository, shallowly embedded from `src/backend/app/refinement_engine.py`
and `src/backend/app/websocket_manager.py`.

External collaborators (PDF rasterizer, markup generator, renderer,
similarity scorer) are modelled as oracles: per page, a trace of the
outcomes each collaborator call would return, with `Except` capturing
Python exceptions.
-/

namespace PdfToHtml

/-- One entry of `pages_data` as produced by `PDFProcessor.process_pdf_file`
(`pdf_processor.py`): page number, raster image path and geometry. -/
structure PageData where
  pageNumber : Nat
  imagePath : String
  width : Nat
  height : Nat
  pixelWidth : Nat
  pixelHeight : Nat
deriving Repr, DecidableEq

/-- The PDF metadata dictionary (`pdf_info`); only the `title` key is read
by the orchestrator (`pdf_info.get("title", "Converted PDF Document")`). -/
structure PdfInfo where
  title : Option String
deriving Repr, DecidableEq

/-- Outcomes of the collaborator calls made while processing one page:
`gen` is the single `generate_initial_html` call; `startBrowser` is the
renderer session's `start_browser` call (`html_renderer.py:49-79`), which
re-raises any launch failure as `Browser startup failed: ...`; `render`,
`refine` and `analyze` are indexed by the 0-based refinement iteration.
`Except.error` models a raised exception, carrying `str(e)`.  `analyze`
returning `Except.ok none` models a successful
`analyze_visual_similarity` call whose result dictionary lacks the
`overall_score` key.  The closing `stop_browser` call
(`html_renderer.py:81-99`) catches every exception internally and never
raises, so it has no observable outcome and carries no oracle field. -/
structure PageOracle where
  gen : Except String String
  startBrowser : Except String Unit
  render : Nat → Except String String
  refine : Nat → Except String String
  analyze : Nat → Except String (Option Int)

/-- A page result dictionary as built by `_process_single_page` (success)
or by the fallback branch of `convert_pdf_to_html`.  Keys absent from the
fallback dictionary are modelled with `Option`. -/
structure PageResult where
  pageNumber : Nat
  htmlContent : String
  refinementIterations : Nat
  finalQualityScore : Int
  qualityProgression : Option (List Int)
  originalDimensions : Option (Nat × Nat)
  pixelDimensions : Option (Nat × Nat)
  error : Option String
deriving Repr, DecidableEq

/-- Python `max(scores)` for a non-empty list. -/
def pyListMax (h : Int) (t : List Int) : Int :=
  t.foldl max h

/-- `max(quality_scores) if quality_scores else 7` from
`_process_single_page`. -/
def finalScoreOf (scores : List Int) : Int :=
  match scores with
  | [] => 7
  | h :: t => pyListMax h t

/-- The per-page refinement loop body of `_process_single_page`
(`for iteration in range(self.max_iterations): ...`).  `fuel` is the number
of remaining iterations, `i` the 0-based index of the current iteration,
`html` the running `current_html`, `iters` the running
`refinement_iterations` counter and `scores` the running `quality_scores`
list.  A render failure propagates (the page fails); a refine failure
breaks out of the loop keeping the current markup; an analyze failure (or a
missing `overall_score` key) contributes the default score 7. -/
def refineLoop (o : PageOracle) : Nat → Nat → String → Nat → List Int →
    Except String (String × Nat × List Int)
  | 0, _, html, iters, scores => .ok (html, iters, scores)
  | fuel + 1, i, html, iters, scores =>
    match o.render i with
    | .error e => .error e
    | .ok _ =>
      match o.refine i with
      | .error _ => .ok (html, iters + 1, scores)
      | .ok refined =>
        let score :=
          match o.analyze i with
          | .ok (some s) => s
          | .ok none => 7
          | .error _ => 7
        refineLoop o fuel (i + 1) refined (iters + 1) (scores ++ [score])

/-- `RefinementEngine._process_single_page`: generate initial HTML, then
start the renderer browser session (line 218; a startup failure
propagates and fails the page), run the bounded refinement loop inside
`try`, and stop the session in `finally` (line 269; `stop_browser` never
raises, so the `finally` block cannot change the outcome on either path);
the result dictionary records the final markup, iteration count, quality
history, final score and geometry. -/
def processSinglePage (maxIterations : Nat) (o : PageOracle) (pd : PageData) :
    Except String PageResult :=
  match o.gen with
  | .error e => .error e
  | .ok initialHtml =>
    match o.startBrowser with
    | .error e => .error e
    | .ok _ =>
    match refineLoop o maxIterations 0 initialHtml 0 [] with
    | .error e => .error e
    | .ok (html, iters, scores) =>
      .ok { pageNumber := pd.pageNumber
            htmlContent := html
            refinementIterations := iters
            finalQualityScore := finalScoreOf scores
            qualityProgression := some scores
            originalDimensions := some (pd.width, pd.height)
            pixelDimensions := some (pd.pixelWidth, pd.pixelHeight)
            error := none }

/-- `RefinementEngine._generate_fallback_html`: the placeholder document for
a page that failed to process, carrying the page number and the original
page geometry. -/
def generateFallbackHtml (pd : PageData) : String :=
  "<!DOCTYPE html>\n<html lang=\"en\">\n<head>\n    <meta charset=\"UTF-8\">\n    <meta name=\"viewport\" content=\"width=device-width, initial-scale=1.0\">\n    <title>Page "
    ++ toString pd.pageNumber ++
    "</title>\n    <style>\n        body \x7b\n            margin: 40px;\n            font-family: Arial, sans-serif;\n            display: flex;\n            align-items: center;\n            justify-content: center;\n            min-height: 60vh;\n            background-color: #f8f9fa;\n        \x7d\n        .error-message \x7b\n            text-align: center;\n            color: #6c757d;\n            padding: 40px;\n            border: 2px dashed #dee2e6;\n            border-radius: 10px;\n        \x7d\n    </style>\n</head>\n<body>\n    <div class=\"error-message\">\n        <h2>Page "
    ++ toString pd.pageNumber ++
    "</h2>\n        <p>This page could not be processed automatically.</p>\n        <p><small>Original dimensions: "
    ++ toString pd.width ++
    "pt Ã— "
    ++ toString pd.height ++
    "pt</small></p>\n    </div>\n</body>\n</html>"

/-- The fallback page dictionary appended by `convert_pdf_to_html` when
`_process_single_page` raises: page number, fallback HTML, zero iterations,
zero score and the error string. -/
def fallbackPage (pd : PageData) (e : String) : PageResult :=
  { pageNumber := pd.pageNumber
    htmlContent := generateFallbackHtml pd
    refinementIterations := 0
    finalQualityScore := 0
    qualityProgression := none
    originalDimensions := none
    pixelDimensions := none
    error := some e }

/-- The error string appended to `task_info['errors']` for a failed page. -/
def pageErrorMsg (pd : PageData) (e : String) : String :=
  "Error processing page " ++ toString pd.pageNumber ++ ": " ++ e

/-- The per-page loop of `convert_pdf_to_html` (step 2): each page yields
either its `_process_single_page` result or a fallback page plus an error
entry; a page failure never stops the loop. -/
def processPages (maxIterations : Nat) :
    List (PageData × PageOracle) → List PageResult × List String
  | [] => ([], [])
  | (pd, o) :: rest =>
    let tailRes := processPages maxIterations rest
    match processSinglePage maxIterations o pd with
    | .ok r => (r :: tailRes.1, tailRes.2)
    | .error e => (fallbackPage pd e :: tailRes.1, pageErrorMsg pd e :: tailRes.2)

/-! ### Python string primitives used by `_combine_pages_to_html` -/

/-- Index (counting from the head of `l`) of the first occurrence of
`needle` as a substring, mirroring Python `str.find` restricted to
non-negative results.  `none` when `needle` does not occur. -/
def strFindPos (needle : List Char) : List Char → Option Nat
  | [] => if needle.isPrefixOf ([] : List Char) then some 0 else none
  | h :: t =>
    if needle.isPrefixOf (h :: t) then some 0
    else (strFindPos needle t).map (· + 1)

/-- Index of the last occurrence of `needle` as a substring, mirroring
Python `str.rfind` restricted to non-negative results. -/
def strRFindPos (needle : List Char) : List Char → Option Nat
  | [] => if needle.isPrefixOf ([] : List Char) then some 0 else none
  | h :: t =>
    match (strRFindPos needle t).map (· + 1) with
    | some j => some j
    | none => if needle.isPrefixOf (h :: t) then some 0 else none

/-- Python `hay.find(needle)`: first index, or `-1`. -/
def pyFind (hay needle : String) : Int :=
  match strFindPos needle.data hay.data with
  | some i => (i : Int)
  | none => -1

/-- Python `hay.find(needle, start)` for a non-negative `start`:
first index at or after `start`, or `-1`. -/
def pyFindFrom (hay needle : String) (start : Nat) : Int :=
  match strFindPos needle.data (hay.data.drop start) with
  | some i => ((start + i : Nat) : Int)
  | none => -1

/-- Python `hay.rfind(needle)`: last index, or `-1`. -/
def pyRFind (hay needle : String) : Int :=
  match strRFindPos needle.data hay.data with
  | some i => (i : Int)
  | none => -1

/-- Python whitespace as stripped by `str.strip()`: exactly the characters
for which `str.isspace()` holds — the ASCII whitespace and separator
controls plus NEL, NBSP and the Unicode space/line/paragraph separators. -/
def isPySpace (c : Char) : Bool :=
  c = ' ' || c = '\t' || c = '\n' || c = '\x0b' || c = '\x0c' || c = '\x0d' ||
  c = '\x1c' || c = '\x1d' || c = '\x1e' || c = '\x1f' || c = '\x85' || c = '\xa0' ||
  c = '\u1680' || c = '\u2000' || c = '\u2001' || c = '\u2002' || c = '\u2003' ||
  c = '\u2004' || c = '\u2005' || c = '\u2006' || c = '\u2007' || c = '\u2008' ||
  c = '\u2009' || c = '\u200A' || c = '\u2028' || c = '\u2029' || c = '\u202F' ||
  c = '\u205F' || c = '\u3000'

/-- Python `s.strip()`. -/
def pyStrip (s : String) : String :=
  ⟨((s.data.dropWhile isPySpace).reverse.dropWhile isPySpace).reverse⟩

/-- Python slice `s[a:b]` for non-negative bounds. -/
def pySlice (s : String) (a b : Nat) : String :=
  ⟨(s.data.drop a).take (b - a)⟩

/-- Python slice `s[a:]` for a non-negative bound. -/
def pySliceFrom (s : String) (a : Nat) : String :=
  ⟨s.data.drop a⟩

/-- The body-extraction step of `_combine_pages_to_html`: find the first
`<body`, skip to just after the following `>`, and cut at the last
`</body>`; when the closing tag is missing take everything to the end of
the fragment (stripped); when no `<body` occurs use the whole fragment
verbatim.  Note Python's `find('>', body_start)` returning `-1` makes
`body_start` equal to `0` via `-1 + 1`. -/
def extractBodyContent (pageHtml : String) : String :=
  let bodyStart := pyFind pageHtml "<body"
  if bodyStart ≠ -1 then
    let bodyStart2 := pyFindFrom pageHtml ">" bodyStart.toNat + 1
    let bodyEnd := pyRFind pageHtml "</body>"
    if bodyEnd ≠ -1 then
      pyStrip (pySlice pageHtml bodyStart2.toNat bodyEnd.toNat)
    else
      pyStrip (pySliceFrom pageHtml bodyStart2.toNat)
  else
    pageHtml

/-! ### `_combine_pages_to_html` -/

/-- The sort key order used by `sorted(pages, key=lambda p: p['page_number'])`. -/
def pageLE (a b : PageResult) : Prop :=
  a.pageNumber ≤ b.pageNumber

instance : DecidableRel pageLE := fun a b => Nat.decLe a.pageNumber b.pageNumber

instance : IsTotal PageResult pageLE := ⟨fun a b => Nat.le_total a.pageNumber b.pageNumber⟩

instance : IsTrans PageResult pageLE := ⟨fun _ _ _ => Nat.le_trans⟩

/-- `sorted(pages, key=lambda p: p['page_number'])` — Python's sort is
stable, as is insertion sort. -/
def sortPages (pages : List PageResult) : List PageResult :=
  List.insertionSort pageLE pages

/-- The fixed head of `html_parts` (document preamble, styles, `<body>`). -/
def headerLines (info : PdfInfo) : List String :=
  [ "<!DOCTYPE html>",
    "<html lang=\"en\">",
    "<head>",
    "    <meta charset=\"UTF-8\">",
    "    <meta name=\"viewport\" content=\"width=device-width, initial-scale=1.0\">",
    "    <title>" ++ info.title.getD "Converted PDF Document" ++ "</title>",
    "    <style>",
    "        body \x7b margin: 0; padding: 20px; font-family: Arial, sans-serif; \x7d",
    "        .pdf-page \x7b margin-bottom: 40px; border-bottom: 2px solid #eee; padding-bottom: 20px; \x7d",
    "        .page-header \x7b color: #666; font-size: 12px; margin-bottom: 10px; \x7d",
    "        .page-content \x7b /* Individual page styles will be embedded */ \x7d",
    "    </style>",
    "</head>",
    "<body>" ]

/-- The `Page X of N` header line of one page container. -/
def pageHeaderLine (n total : Nat) : String :=
  "        <div class=\"page-header\">Page " ++ toString n ++ " of " ++ toString total ++ "</div>"

/-- The lines appended to `html_parts` for one page: container div with a
page anchor, `Page X of N` header, content wrapper holding the extracted
body of the fragment. -/
def pageBlockLines (total : Nat) (p : PageResult) : List String :=
  [ "    <div class=\"pdf-page\" id=\"page-" ++ toString p.pageNumber ++ "\">",
    pageHeaderLine p.pageNumber total,
    "        <div class=\"page-content\">",
    "            " ++ extractBodyContent p.htmlContent,
    "        </div>",
    "    </div>" ]

/-- The closing lines of `html_parts`. -/
def footerLines : List String :=
  ["</body>", "</html>"]

/-- The complete `html_parts` list built by `_combine_pages_to_html`. -/
def combineParts (pages : List PageResult) (info : PdfInfo) : List String :=
  let sorted := sortPages pages
  headerLines info ++ (sorted.map (pageBlockLines sorted.length)).flatten ++ footerLines

/-- `RefinementEngine._combine_pages_to_html`: `'\n'.join(html_parts)`. -/
def combinePagesToHtml (pages : List PageResult) (info : PdfInfo) : String :=
  String.intercalate "\n" (combineParts pages info)

/-! ### `convert_pdf_to_html` -/

/-- The observable outcome of `convert_pdf_to_html`.  `status` is the
`'status'` key of the returned dictionary, `taskStatus` the final
`task_info['status']`, and `cleaned` records whether
`_cleanup_temp_files` was invoked before returning (release of the
extracted page images and of all screenshots). -/
structure ConvertResult where
  status : String
  taskStatus : String
  pages : List PageResult
  combinedHtml : Option String
  errors : List String
  cleaned : Bool
deriving Repr, DecidableEq

/-- `RefinementEngine.convert_pdf_to_html`: extraction (whose outcome is
the `extract` argument: page list paired with per-page collaborator
traces, or the extraction exception), the per-page loop with fallback,
assembly, and cleanup; a fatal extraction failure returns an error result
without invoking `_cleanup_temp_files`. -/
def convertPdfToHtml (maxIterations : Nat)
    (extract : Except String (List (PageData × PageOracle) × PdfInfo)) :
    ConvertResult :=
  match extract with
  | .error e =>
    { status := "error"
      taskStatus := "failed"
      pages := []
      combinedHtml := none
      errors := ["Fatal error in PDF conversion: " ++ e]
      cleaned := false }
  | .ok (pws, info) =>
    let res := processPages maxIterations pws
    { status := "success"
      taskStatus := "completed"
      pages := res.1
      combinedHtml := some (combinePagesToHtml res.1 info)
      errors := res.2
      cleaned := true }

/-! ### `websocket_manager.py` -/

/-- The history update performed by `WebSocketManager._send_message` on
`task_statuses[task_id]['messages']`: pop the oldest entry when the
current length exceeds 50, then append the new message. -/
def recordMessage {α : Type} (messages : List α) (m : α) : List α :=
  let msgs := if messages.length > 50 then messages.drop 1 else messages
  msgs ++ [m]

/-- Python `int()` applied to a rational value: truncation toward zero. -/
def truncRat (q : ℚ) : ℤ :=
  if 0 ≤ q then ⌊q⌋ else -⌊-q⌋

/-- Python true division `a / b` on integers: raises `ZeroDivisionError`
(modelled as `none`) when `b = 0`, otherwise the exact rational. -/
def pyTrueDiv (a b : Int) : Option ℚ :=
  if b = 0 then none else some ((a : ℚ) / (b : ℚ))

/-- The percentage computation of `WebSocketManager.send_page_completion`:
`int((current_page / total_pages) * 100) if total_pages > 0 else 0`.
The outer `Option` is `none` exactly when a division error is raised. -/
def sendPageCompletionPercentage (currentPage totalPages : Int) : Option Int :=
  if totalPages > 0 then
    (pyTrueDiv currentPage totalPages).map (fun q => truncRat (q * 100))
  else
    some 0

/-- The percentage computation of the callback built by
`create_progress_callback`: `progress_percentage` starts as `None` and is
set to `int((current_page / total_pages) * 100)` only when both
`current_page` and `total_pages` are present and `total_pages > 0`.
The outer `Option` is `none` exactly when a division error is raised; the
inner `Option` is the Python `None`-or-percentage value. -/
def progressCallbackPercentage (currentPage totalPages : Option Int) :
    Option (Option Int) :=
  match currentPage, totalPages with
  | some c, some t =>
    if t > 0 then (pyTrueDiv c t).map (fun q => some (truncRat (q * 100)))
    else some none
  | some _, none => some none
  | none, _ => some none

/-! ### Helper lemmas about the refinement loop -/

theorem refineLoop_iters_le (o : PageOracle) :
    ∀ (fuel i iters : Nat) (html : String) (scores : List Int)
      (h : String) (it : Nat) (sc : List Int),
      refineLoop o fuel i html iters scores = .ok (h, it, sc) → it ≤ iters + fuel := by
  intro fuel
  induction fuel with
  | zero =>
    intro i iters html scores h it sc hE
    simp only [refineLoop, Except.ok.injEq, Prod.mk.injEq] at hE
    omega
  | succ n ih =>
    intro i iters html scores h it sc hE
    simp only [refineLoop] at hE
    cases hr : o.render i with
    | error e => rw [hr] at hE; cases hE
    | ok shot =>
      rw [hr] at hE
      cases hf : o.refine i with
      | error e =>
        rw [hf] at hE
        simp only [Except.ok.injEq, Prod.mk.injEq] at hE
        omega
      | ok refined =>
        rw [hf] at hE
        have := ih (i + 1) (iters + 1) refined _ h it sc hE
        omega

theorem processSinglePage_ok_elim {m : Nat} {o : PageOracle} {pd : PageData}
    {r : PageResult} (h : processSinglePage m o pd = .ok r) :
    ∃ initial html iters scores,
      o.gen = .ok initial ∧
      o.startBrowser = .ok () ∧
      refineLoop o m 0 initial 0 [] = .ok (html, iters, scores) ∧
      r = { pageNumber := pd.pageNumber
            htmlContent := html
            refinementIterations := iters
            finalQualityScore := finalScoreOf scores
            qualityProgression := some scores
            originalDimensions := some (pd.width, pd.height)
            pixelDimensions := some (pd.pixelWidth, pd.pixelHeight)
            error := none } := by
  unfold processSinglePage at h
  split at h
  · cases h
  · rename_i initial hg
    split at h
    · cases h
    · rename_i u hstart
      split at h
      · cases h
      · rename_i html iters scores hl
        exact ⟨initial, html, iters, scores, hg, hstart, hl, (Except.ok.inj h).symm⟩

/-! ### Helper lemmas about `max` over the quality history -/

theorem self_le_pyListMax (h : Int) (t : List Int) : h ≤ pyListMax h t := by
  induction t generalizing h with
  | nil => simp [pyListMax]
  | cons a t ih =>
    calc h ≤ max h a := le_max_left _ _
      _ ≤ pyListMax (max h a) t := ih _

theorem pyListMax_mem (h : Int) (t : List Int) : pyListMax h t ∈ h :: t := by
  induction t generalizing h with
  | nil => simp [pyListMax]
  | cons a t ih =>
    have hmem : pyListMax (max h a) t ∈ max h a :: t := ih (max h a)
    have hrw : pyListMax h (a :: t) = pyListMax (max h a) t := rfl
    rw [hrw]
    rcases List.mem_cons.1 hmem with he | ht
    · rcases max_choice h a with h1 | h1
      · rw [he, h1]; exact List.mem_cons_self _ _
      · rw [he, h1]; exact List.mem_cons_of_mem _ (List.mem_cons_self _ _)
    · exact List.mem_cons_of_mem _ (List.mem_cons_of_mem _ ht)

theorem le_pyListMax (h : Int) (t : List Int) (s : Int) (hs : s ∈ h :: t) :
    s ≤ pyListMax h t := by
  induction t generalizing h with
  | nil =>
    rcases List.mem_cons.1 hs with rfl | hfalse
    · simp [pyListMax]
    · cases hfalse
  | cons a t ih =>
    have hrw : pyListMax h (a :: t) = pyListMax (max h a) t := rfl
    rw [hrw]
    rcases List.mem_cons.1 hs with rfl | hs'
    · exact le_trans (le_max_left _ _) (self_le_pyListMax _ _)
    · rcases List.mem_cons.1 hs' with rfl | hs''
      · exact le_trans (le_max_right _ _) (self_le_pyListMax _ _)
      · exact ih (max h a) (List.mem_cons_of_mem _ hs'')

/-! ### Helper lemmas about the orchestrator's per-page loop -/

theorem processPages_length (m : Nat) (l : List (PageData × PageOracle)) :
    (processPages m l).1.length = l.length := by
  induction l with
  | nil => rfl
  | cons hd tl ih =>
    obtain ⟨pd, o⟩ := hd
    simp only [processPages]
    cases processSinglePage m o pd <;> simp [ih]

theorem processPages_fallback (m : Nat) (l : List (PageData × PageOracle)) :
    ∀ (i : Nat) (pd : PageData) (o : PageOracle) (e : String),
      l[i]? = some (pd, o) → processSinglePage m o pd = .error e →
      (processPages m l).1[i]? = some (fallbackPage pd e) ∧
      pageErrorMsg pd e ∈ (processPages m l).2 := by
  induction l with
  | nil => intro i pd o e hget _; simp at hget
  | cons hd tl ih =>
    intro i pd o e hget hfail
    obtain ⟨pd', o'⟩ := hd
    cases i with
    | zero =>
      simp only [List.getElem?_cons_zero, Option.some.injEq, Prod.mk.injEq] at hget
      obtain ⟨rfl, rfl⟩ := hget
      simp only [processPages, hfail]
      exact ⟨by simp, List.mem_cons_self _ _⟩
    | succ j =>
      simp only [List.getElem?_cons_succ] at hget
      have htail := ih j pd o e hget hfail
      simp only [processPages]
      cases hps : processSinglePage m o' pd' with
      | ok r => exact ⟨by simpa using htail.1, htail.2⟩
      | error e' =>
        exact ⟨by simpa using htail.1, List.mem_cons_of_mem _ htail.2⟩

/-! ### Concrete fixtures used by witnesses -/

def samplePage : PageData :=
  { pageNumber := 1, imagePath := "page_1.png", width := 612, height := 792,
    pixelWidth := 1224, pixelHeight := 1584 }

def samplePage2 : PageData :=
  { pageNumber := 2, imagePath := "page_2.png", width := 612, height := 792,
    pixelWidth := 1224, pixelHeight := 1584 }

def samplePage3 : PageData :=
  { pageNumber := 3, imagePath := "page_3.png", width := 595, height := 842,
    pixelWidth := 1190, pixelHeight := 1684 }

def sampleInfo : PdfInfo := { title := some "Sample Document" }

/-- A page whose collaborators all succeed but whose similarity scoring is
unavailable (every `analyze_visual_similarity` call raises). -/
def okOracle : PageOracle :=
  { gen := .ok "<html><body>G</body></html>"
    startBrowser := .ok ()
    render := fun _ => .ok "shot.png"
    refine := fun i => .ok ("<html><body>R" ++ toString i ++ "</body></html>")
    analyze := fun _ => .error "scoring unavailable" }

/-- A page whose initial generation call raises. -/
def genFailOracle : PageOracle :=
  { gen := .error "generation failed"
    startBrowser := .ok ()
    render := fun _ => .ok "shot.png"
    refine := fun _ => .ok "<html><body>R</body></html>"
    analyze := fun _ => .ok (some 5) }

/-- A page whose refinement call raises on the first iteration. -/
def refineFailOracle : PageOracle :=
  { gen := .ok "<html><body>INITIAL</body></html>"
    startBrowser := .ok ()
    render := fun _ => .ok "shot.png"
    refine := fun _ => .error "refine failed"
    analyze := fun _ => .ok (some 5) }

/-- A page whose generation succeeds but whose renderer browser session
fails to start (`start_browser` re-raises the launch failure). -/
def browserFailOracle : PageOracle :=
  { gen := .ok "<html><body>G</body></html>"
    startBrowser := .error "Browser startup failed: launch error"
    render := fun _ => .ok "shot.png"
    refine := fun i => .ok ("<html><body>R" ++ toString i ++ "</body></html>")
    analyze := fun _ => .error "scoring unavailable" }

/-! ### Claims -/

/-- C1: a page whose processing raises an exception (generation, render,
or refinement failure not caught internally) contributes, at its position
in the loop, a fallback page result with `refinement_iterations = 0` and
`final_quality_score = 0` carrying the page number and the fallback HTML
(which embeds the original geometry); its error string is recorded in the
task error list; all pages are still processed and the task completes. -/
theorem page_failure_fallback_and_continue
    (m : Nat) (pws : List (PageData × PageOracle)) (info : PdfInfo)
    (i : Nat) (pd : PageData) (o : PageOracle) (e : String)
    (hget : pws[i]? = some (pd, o))
    (hfail : processSinglePage m o pd = .error e) :
    (convertPdfToHtml m (.ok (pws, info))).pages[i]? = some (fallbackPage pd e) ∧
    pageErrorMsg pd e ∈ (convertPdfToHtml m (.ok (pws, info))).errors ∧
    (convertPdfToHtml m (.ok (pws, info))).pages.length = pws.length ∧
    (convertPdfToHtml m (.ok (pws, info))).status = "success" ∧
    (convertPdfToHtml m (.ok (pws, info))).taskStatus = "completed" ∧
    (fallbackPage pd e).refinementIterations = 0 ∧
    (fallbackPage pd e).finalQualityScore = 0 ∧
    (fallbackPage pd e).pageNumber = pd.pageNumber ∧
    (fallbackPage pd e).htmlContent = generateFallbackHtml pd := by
  have hfb := processPages_fallback m pws i pd o e hget hfail
  have hlen := processPages_length m pws
  exact ⟨hfb.1, hfb.2, hlen, rfl, rfl, rfl, rfl, rfl, rfl⟩

theorem page_failure_fallback_and_continue_witness :
    (convertPdfToHtml 2 (.ok ([(samplePage, genFailOracle), (samplePage2, okOracle)], sampleInfo))).pages[0]? =
      some (fallbackPage samplePage "generation failed") ∧
    pageErrorMsg samplePage "generation failed" ∈
      (convertPdfToHtml 2 (.ok ([(samplePage, genFailOracle), (samplePage2, okOracle)], sampleInfo))).errors ∧
    (convertPdfToHtml 2 (.ok ([(samplePage, genFailOracle), (samplePage2, okOracle)], sampleInfo))).pages.length = 2 ∧
    (convertPdfToHtml 2 (.ok ([(samplePage, genFailOracle), (samplePage2, okOracle)], sampleInfo))).status = "success" := by
  have h := page_failure_fallback_and_continue 2
    [(samplePage, genFailOracle), (samplePage2, okOracle)] sampleInfo
    0 samplePage genFailOracle "generation failed" (by rfl) (by rfl)
  exact ⟨h.1, h.2.1, h.2.2.1, h.2.2.2.1⟩

/-- C2: a refinement-call failure on iteration `k` stops the per-page loop
early without raising, keeping the markup from before the failed call; in
particular a failure on iteration 1 (reaching the refine call entails the
generation and the renderer-session start succeeded) yields a normal
result with `refinement_iterations = 1` and the initial generation's
markup, and the task still completes. -/
theorem refine_failure_stops_loop_softly :
    (∀ (o : PageOracle) (fuel i iters : Nat) (html : String) (scores : List Int)
       (shot msg : String),
       o.render i = .ok shot → o.refine i = .error msg →
       refineLoop o (fuel + 1) i html iters scores = .ok (html, iters + 1, scores)) ∧
    (∀ (m : Nat) (o : PageOracle) (pd : PageData) (g shot msg : String),
       1 ≤ m → o.gen = .ok g → o.startBrowser = .ok () →
       o.render 0 = .ok shot → o.refine 0 = .error msg →
       processSinglePage m o pd = .ok
         { pageNumber := pd.pageNumber
           htmlContent := g
           refinementIterations := 1
           finalQualityScore := 7
           qualityProgression := some []
           originalDimensions := some (pd.width, pd.height)
           pixelDimensions := some (pd.pixelWidth, pd.pixelHeight)
           error := none }) ∧
    (∀ (m : Nat) (pws : List (PageData × PageOracle)) (info : PdfInfo),
       (convertPdfToHtml m (.ok (pws, info))).status = "success" ∧
       (convertPdfToHtml m (.ok (pws, info))).taskStatus = "completed") := by
  have hloop : ∀ (o : PageOracle) (fuel i iters : Nat) (html : String)
      (scores : List Int) (shot msg : String),
      o.render i = .ok shot → o.refine i = .error msg →
      refineLoop o (fuel + 1) i html iters scores = .ok (html, iters + 1, scores) := by
    intro o fuel i iters html scores shot msg hr hf
    simp only [refineLoop, hr, hf]
  refine ⟨hloop, ?_, fun m pws info => ⟨rfl, rfl⟩⟩
  intro m o pd g shot msg hm hg hstart hr hf
  obtain ⟨k, rfl⟩ : ∃ k, m = k + 1 := ⟨m - 1, by omega⟩
  simp only [processSinglePage, hg, hstart, hloop o k 0 0 g [] shot msg hr hf]
  rfl

theorem refine_failure_stops_loop_softly_witness :
    processSinglePage 2 refineFailOracle samplePage2 = .ok
      { pageNumber := 2
        htmlContent := "<html><body>INITIAL</body></html>"
        refinementIterations := 1
        finalQualityScore := 7
        qualityProgression := some []
        originalDimensions := some (612, 792)
        pixelDimensions := some (1224, 1584)
        error := none } ∧
    (convertPdfToHtml 2 (.ok ([(samplePage, okOracle), (samplePage2, refineFailOracle),
        (samplePage3, okOracle)], sampleInfo))).taskStatus = "completed" := by
  refine ⟨?_, (refine_failure_stops_loop_softly.2.2 2 _ sampleInfo).2⟩
  exact refine_failure_stops_loop_softly.2.1 2 refineFailOracle samplePage2
    "<html><body>INITIAL</body></html>" "shot.png" "refine failed"
    (by omega) rfl rfl rfl rfl

/-- C3: `refinement_iterations` never exceeds the configured
`max_iterations`, and the fallback result of a failed page records 0
iterations, which also satisfies the bound. -/
theorem iterations_le_max_iterations
    (m : Nat) (o : PageOracle) (pd : PageData) (r : PageResult)
    (h : processSinglePage m o pd = .ok r) :
    r.refinementIterations ≤ m ∧
    ∀ e : String, (fallbackPage pd e).refinementIterations = 0 ∧
      (fallbackPage pd e).refinementIterations ≤ m := by
  obtain ⟨initial, html, iters, scores, _, _, hloop, rfl⟩ := processSinglePage_ok_elim h
  have := refineLoop_iters_le o m 0 0 initial [] html iters scores hloop
  exact ⟨by simpa using this, fun e => ⟨rfl, Nat.zero_le _⟩⟩

theorem iterations_le_max_iterations_witness :
    ∃ r, processSinglePage 2 okOracle samplePage = Except.ok r ∧
      r.refinementIterations ≤ 2 ∧
      (fallbackPage samplePage "boom").refinementIterations = 0 := by
  refine ⟨_, rfl, ?_⟩
  have h := iterations_le_max_iterations 2 okOracle samplePage _ rfl
  exact ⟨h.1, (h.2 "boom").1⟩

/-- C7: the final quality score of a successfully processed page is the
maximum of the recorded quality progression when it is non-empty and the
neutral default 7 when it is empty; a one-page run with generation
succeeding and similarity scoring unavailable completes with final score 7
and an empty task error list. -/
theorem final_score_is_max_of_history :
    (∀ (m : Nat) (o : PageOracle) (pd : PageData) (r : PageResult),
       processSinglePage m o pd = .ok r →
       ∃ scores, r.qualityProgression = some scores ∧
         (scores = [] → r.finalQualityScore = 7) ∧
         (scores ≠ [] → r.finalQualityScore ∈ scores ∧
            ∀ s ∈ scores, s ≤ r.finalQualityScore)) ∧
    (convertPdfToHtml 2 (.ok ([(samplePage, okOracle)], sampleInfo))).errors = [] ∧
    (∃ r, (convertPdfToHtml 2 (.ok ([(samplePage, okOracle)], sampleInfo))).pages = [r] ∧
       r.finalQualityScore = 7) := by
  refine ⟨?_, rfl, ⟨_, rfl, rfl⟩⟩
  intro m o pd r h
  obtain ⟨initial, html, iters, scores, _, _, _, rfl⟩ := processSinglePage_ok_elim h
  refine ⟨scores, rfl, ?_, ?_⟩
  · intro hnil; simp [finalScoreOf, hnil]
  · intro hne
    obtain ⟨sh, st, rfl⟩ : ∃ sh st, scores = sh :: st := by
      cases scores with
      | nil => exact absurd rfl hne
      | cons sh st => exact ⟨sh, st, rfl⟩
    exact ⟨pyListMax_mem sh st, fun s hs => le_pyListMax sh st s hs⟩

theorem final_score_is_max_of_history_witness :
    ∃ r, processSinglePage 2 okOracle samplePage = Except.ok r ∧
      r.qualityProgression = some [7, 7] ∧ r.finalQualityScore ∈ [7, 7] := by
  refine ⟨_, rfl, rfl, ?_⟩
  obtain ⟨scores, hprog, _, hne⟩ := final_score_is_max_of_history.1 2 okOracle samplePage _ rfl
  have hscores : scores = [7, 7] := by
    have : some scores = some [7, 7] := by rw [← hprog]; rfl
    exact Option.some.inj this
  subst hscores
  exact (hne (by simp)).1

/-- C8 counterexample: `_process_single_page` starts and stops the
renderer browser session unconditionally, even with `max_iterations = 0`
(lines 218 and 269 are outside the `for` loop): a page whose generation
succeeds but whose browser startup fails returns no page result at all —
the startup exception propagates as a page failure — and two pages that
agree on the generation outcome but differ in the renderer-session
outcome produce different results, so the renderer collaborator is
consulted. -/
theorem max_iterations_zero_still_starts_renderer :
    processSinglePage 0 browserFailOracle samplePage =
      .error "Browser startup failed: launch error" ∧
    browserFailOracle.gen = okOracle.gen ∧
    processSinglePage 0 browserFailOracle samplePage ≠
      processSinglePage 0 okOracle samplePage := by
  refine ⟨rfl, rfl, ?_⟩
  intro hcontra
  have h1 : processSinglePage 0 browserFailOracle samplePage =
      Except.error "Browser startup failed: launch error" := rfl
  have h2 : processSinglePage 0 okOracle samplePage = Except.ok
      { pageNumber := 1
        htmlContent := "<html><body>G</body></html>"
        refinementIterations := 0
        finalQualityScore := 7
        qualityProgression := some []
        originalDimensions := some (612, 792)
        pixelDimensions := some (1224, 1584)
        error := none } := rfl
  rw [h1, h2] at hcontra
  cases hcontra

/-- C8 amended: with `max_iterations = 0` the per-iteration render, refine
and analyze collaborators are never consulted — the page result depends
only on the generation outcome and the renderer-session startup outcome —
but the browser session is still started (and stopped): when generation
and startup both succeed, the page is generated once and never refined,
returning the generated markup with zero iterations and an empty quality
progression; a generation failure propagates, and so does a
browser-startup failure. -/
theorem max_iterations_zero_no_refinement :
    (∀ (pd : PageData) (o o' : PageOracle), o'.gen = o.gen →
       o'.startBrowser = o.startBrowser →
       processSinglePage 0 o pd = processSinglePage 0 o' pd) ∧
    (∀ (pd : PageData) (o : PageOracle) (g : String),
       o.gen = .ok g → o.startBrowser = .ok () →
       processSinglePage 0 o pd = .ok
         { pageNumber := pd.pageNumber
           htmlContent := g
           refinementIterations := 0
           finalQualityScore := 7
           qualityProgression := some []
           originalDimensions := some (pd.width, pd.height)
           pixelDimensions := some (pd.pixelWidth, pd.pixelHeight)
           error := none }) ∧
    (∀ (pd : PageData) (o : PageOracle) (e : String), o.gen = .error e →
       processSinglePage 0 o pd = .error e) ∧
    (∀ (pd : PageData) (o : PageOracle) (g e : String),
       o.gen = .ok g → o.startBrowser = .error e →
       processSinglePage 0 o pd = .error e) := by
  refine ⟨?_, ?_, ?_, ?_⟩
  · intro pd o o' hgen hstart
    simp only [processSinglePage, hgen, hstart, refineLoop]
  · intro pd o g hg hstart
    simp only [processSinglePage, hg, hstart, refineLoop]
    rfl
  · intro pd o e hg
    simp only [processSinglePage, hg]
  · intro pd o g e hg hstart
    simp only [processSinglePage, hg, hstart]

theorem max_iterations_zero_no_refinement_witness :
    processSinglePage 0 okOracle samplePage = .ok
      { pageNumber := 1
        htmlContent := "<html><body>G</body></html>"
        refinementIterations := 0
        finalQualityScore := 7
        qualityProgression := some []
        originalDimensions := some (612, 792)
        pixelDimensions := some (1224, 1584)
        error := none } ∧
    processSinglePage 0 browserFailOracle samplePage =
      .error "Browser startup failed: launch error" :=
  ⟨max_iterations_zero_no_refinement.2.1 samplePage okOracle
      "<html><body>G</body></html>" rfl rfl,
   max_iterations_zero_no_refinement.2.2.2 samplePage browserFailOracle
      "<html><body>G</body></html>" "Browser startup failed: launch error" rfl rfl⟩

/-- C5 counterexample: on the fatal extraction-failure exit path,
`convert_pdf_to_html` returns the error result without invoking
`_cleanup_temp_files`, so there is an exit path on which the transient
artifacts are not released. -/
theorem cleanup_skipped_on_fatal_path :
    (convertPdfToHtml 2 (Except.error "corrupt input")).cleaned = false ∧
    (convertPdfToHtml 2 (Except.error "corrupt input")).status = "error" :=
  ⟨rfl, rfl⟩

/-- C5 amended: `_cleanup_temp_files` (release of the extracted page
images and all screenshots) runs before `convert_pdf_to_html` returns on
the successful path, but the fatal extraction-failure path returns the
error result without invoking it. -/
theorem cleanup_only_on_success_path
    (m : Nat) (pws : List (PageData × PageOracle)) (info : PdfInfo) (e : String) :
    (convertPdfToHtml m (.ok (pws, info))).cleaned = true ∧
    (convertPdfToHtml m (.error e)).cleaned = false :=
  ⟨rfl, rfl⟩

set_option maxRecDepth 4000 in
/-- C9 counterexample: starting from an empty history, 51 publish
operations leave the per-task message history at length 51, so the history
length can exceed 50 after a publish. -/
theorem history_reaches_51 :
    ((List.range 51).foldl (fun acc k => recordMessage acc k) ([] : List Nat)).length = 51 ∧
    ¬ ((List.range 51).foldl (fun acc k => recordMessage acc k) ([] : List Nat)).length ≤ 50 := by
  constructor
  · decide
  · decide

/-- C9 amended: the history update pops the oldest entry only when the
length already exceeds 50 and then appends, so the history is a bounded
rolling buffer of at most 51 events: a publish at length ≤ 50 appends,
a publish above the threshold drops the oldest event first, and the length
after every publish is at most 51 (not 50). -/
theorem history_bounded_by_51 {α : Type} (msgs : List α) (m : α)
    (h : msgs.length ≤ 51) :
    (recordMessage msgs m).length ≤ 51 ∧
    (msgs.length > 50 → recordMessage msgs m = msgs.drop 1 ++ [m]) ∧
    (msgs.length ≤ 50 → recordMessage msgs m = msgs ++ [m]) := by
  refine ⟨?_, ?_, ?_⟩
  · by_cases hlen : msgs.length > 50
    · simp only [recordMessage, if_pos hlen, List.length_append, List.length_drop]
      simp
      omega
    · simp only [recordMessage, if_neg hlen, List.length_append]
      simp
      omega
  · intro hlen; simp [recordMessage, if_pos hlen]
  · intro hlen
    have : ¬ msgs.length > 50 := by omega
    simp [recordMessage, if_neg this]

set_option maxRecDepth 4000 in
theorem history_bounded_by_51_witness :
    (List.range 51).length ≤ 51 ∧
    (recordMessage (List.range 51) 99).length ≤ 51 ∧
    recordMessage (List.range 51) 99 = (List.range 51).drop 1 ++ [99] := by
  have h := history_bounded_by_51 (List.range 51) 99 (by decide)
  exact ⟨by decide, h.1, h.2.1 (by decide)⟩

/-- C10: both progress-percentage computations are guarded against
division by zero: `send_page_completion` divides only when
`total_pages > 0` and reports 0 otherwise, and the progress callback
computes a percentage only when both page counts are present and
`total_pages > 0`, leaving it `None` otherwise; neither computation can
raise a division error (`Option.isSome` of the outer layer is always
`true`). -/
theorem percentage_division_guarded :
    (∀ c t : Int, (sendPageCompletionPercentage c t).isSome = true) ∧
    (∀ c t : Int, t ≤ 0 → sendPageCompletionPercentage c t = some 0) ∧
    (∀ c t : Int, t > 0 →
       sendPageCompletionPercentage c t = some (truncRat (((c : ℚ) / (t : ℚ)) * 100))) ∧
    (∀ cp tp : Option Int, (progressCallbackPercentage cp tp).isSome = true) ∧
    (∀ tp : Option Int, progressCallbackPercentage none tp = some none) ∧
    (∀ c : Int, progressCallbackPercentage (some c) none = some none) ∧
    (∀ c t : Int, t ≤ 0 → progressCallbackPercentage (some c) (some t) = some none) ∧
    (∀ c t : Int, t > 0 →
       progressCallbackPercentage (some c) (some t) =
         some (some (truncRat (((c : ℚ) / (t : ℚ)) * 100)))) := by
  have hdiv : ∀ c t : Int, t > 0 → pyTrueDiv c t = some ((c : ℚ) / (t : ℚ)) := by
    intro c t ht
    simp [pyTrueDiv, ne_of_gt ht]
  refine ⟨?_, ?_, ?_, ?_, ?_, ?_, ?_, ?_⟩
  · intro c t
    by_cases ht : t > 0
    · simp [sendPageCompletionPercentage, if_pos ht, hdiv c t ht]
    · simp [sendPageCompletionPercentage, if_neg ht]
  · intro c t ht
    have : ¬ t > 0 := by omega
    simp [sendPageCompletionPercentage, if_neg this]
  · intro c t ht
    simp [sendPageCompletionPercentage, if_pos ht, hdiv c t ht]
  · intro cp tp
    match cp, tp with
    | some c, some t =>
      by_cases ht : t > 0
      · simp [progressCallbackPercentage, if_pos ht, hdiv c t ht]
      · simp [progressCallbackPercentage, if_neg ht]
    | some _, none => simp [progressCallbackPercentage]
    | none, _ => simp [progressCallbackPercentage]
  · intro tp; rfl
  · intro c; rfl
  · intro c t ht
    have : ¬ t > 0 := by omega
    simp [progressCallbackPercentage, if_neg this]
  · intro c t ht
    simp [progressCallbackPercentage, if_pos ht, hdiv c t ht]

theorem percentage_division_guarded_witness :
    (sendPageCompletionPercentage 3 0).isSome = true ∧
    sendPageCompletionPercentage 3 0 = some 0 ∧
    sendPageCompletionPercentage 1 2 = some (truncRat ((1 / 2 : ℚ) * 100)) ∧
    progressCallbackPercentage (some 3) (some 0) = some none ∧
    (progressCallbackPercentage (some 3) (some 0)).isSome = true := by
  have h := percentage_division_guarded
  exact ⟨h.1 3 0, h.2.1 3 0 (by omega),
    by simpa using h.2.2.1 1 2 (by omega),
    h.2.2.2.2.2.2.1 3 0 (by omega),
    h.2.2.2.1 (some 3) (some 0)⟩

/-! ### C4: permutation invariance of the assembler -/

/-- Strict version of the sort key order, used to show uniqueness of the
sorted arrangement when page numbers are distinct. -/
def pageLT (a b : PageResult) : Prop :=
  a.pageNumber < b.pageNumber

instance : IsAntisymm PageResult pageLT :=
  ⟨fun _ _ h1 h2 => absurd h2 (Nat.lt_asymm h1)⟩

theorem sorted_pageLT_of_sorted_pageLE {l : List PageResult}
    (hs : List.Sorted pageLE l)
    (hnd : (l.map PageResult.pageNumber).Nodup) : List.Sorted pageLT l := by
  have hpw : List.Pairwise (fun a b : PageResult => a.pageNumber ≠ b.pageNumber) l :=
    (List.pairwise_map).1 hnd
  exact (hs.and hpw).imp (fun h => lt_of_le_of_ne h.1 h.2)

theorem sortPages_eq_of_perm {pages pages' : List PageResult}
    (hperm : pages.Perm pages')
    (hnd : (pages.map PageResult.pageNumber).Nodup) :
    sortPages pages = sortPages pages' := by
  have h1 : (sortPages pages).Perm pages := List.perm_insertionSort pageLE pages
  have h2 : (sortPages pages').Perm pages' := List.perm_insertionSort pageLE pages'
  have hnd' : (pages'.map PageResult.pageNumber).Nodup :=
    ((hperm.map PageResult.pageNumber).nodup_iff).1 hnd
  have hnd1 : ((sortPages pages).map PageResult.pageNumber).Nodup :=
    ((h1.map PageResult.pageNumber).nodup_iff).2 hnd
  have hnd2 : ((sortPages pages').map PageResult.pageNumber).Nodup :=
    ((h2.map PageResult.pageNumber).nodup_iff).2 hnd'
  exact List.eq_of_perm_of_sorted
    (h1.trans (hperm.trans h2.symm))
    (sorted_pageLT_of_sorted_pageLE (List.sorted_insertionSort pageLE pages) hnd1)
    (sorted_pageLT_of_sorted_pageLE (List.sorted_insertionSort pageLE pages') hnd2)

/-- Boolean prefix test on character lists, used to recognize the page
container opening line. -/
def startsWithChars : List Char → List Char → Bool
  | [], _ => true
  | _ :: _, [] => false
  | c :: cs, d :: ds => c == d && startsWithChars cs ds

/-- The marker every page container opening line begins with. -/
def containerOpenMark : String :=
  "    <div class=\"pdf-page\""

/-- Recognizer of page container opening lines. -/
def isContainerOpen (s : String) : Bool :=
  startsWithChars containerOpenMark.data s.data

theorem isContainerOpen_open_line (s t : String) :
    isContainerOpen ("    <div class=\"pdf-page\" id=\"page-" ++ s ++ t) = true := rfl

theorem isContainerOpen_header_line (s : String) :
    isContainerOpen ("        <div class=\"page-header\">Page " ++ s) = false := rfl

theorem isContainerOpen_content_line (s : String) :
    isContainerOpen ("            " ++ s) = false := rfl

theorem isContainerOpen_title_line (s : String) :
    isContainerOpen ("    <title>" ++ s) = false := rfl

theorem countP_pageBlockLines (total : Nat) (p : PageResult) :
    (pageBlockLines total p).countP isContainerOpen = 1 := by
  have h1 : isContainerOpen
      ("    <div class=\"pdf-page\" id=\"page-" ++ toString p.pageNumber ++ "\">") = true :=
    isContainerOpen_open_line (toString p.pageNumber) "\">"
  have h2 : isContainerOpen (pageHeaderLine p.pageNumber total) = false := by
    show isContainerOpen
      ("        <div class=\"page-header\">Page " ++ toString p.pageNumber ++ " of "
        ++ toString total ++ "</div>") = false
    have := isContainerOpen_header_line
      (toString p.pageNumber ++ " of " ++ toString total ++ "</div>")
    simpa [String.append_assoc] using this
  have h4 : isContainerOpen ("            " ++ extractBodyContent p.htmlContent) = false :=
    isContainerOpen_content_line _
  simp [pageBlockLines, List.countP_cons, h1, h2, h4, isContainerOpen,
    containerOpenMark, startsWithChars]

theorem countP_headerLines (info : PdfInfo) :
    (headerLines info).countP isContainerOpen = 0 := by
  have ht : isContainerOpen
      ("    <title>" ++ info.title.getD "Converted PDF Document" ++ "</title>") = false := by
    have := isContainerOpen_title_line (info.title.getD "Converted PDF Document" ++ "</title>")
    simpa [String.append_assoc] using this
  simp [headerLines, List.countP_cons, ht, isContainerOpen, containerOpenMark, startsWithChars]

theorem countP_blocks (total : Nat) (l : List PageResult) :
    ((l.map (pageBlockLines total)).flatten).countP isContainerOpen = l.length := by
  induction l with
  | nil => rfl
  | cons hd tl ih =>
    simp [List.countP_append, countP_pageBlockLines, ih]
    omega

/-- C4: for page-result lists with pairwise distinct page numbers, the
assembled document is invariant under any permutation of the input list;
the parts list contains exactly one page container opening line per input
page; the page numbers of the sorted arrangement are ascending and a
permutation of the input page numbers; and each page contributes a
`Page X of N` header with `N` the number of input pages. -/
theorem combine_permutation_invariant
    (pages pages' : List PageResult) (info : PdfInfo)
    (hperm : pages.Perm pages')
    (hnd : (pages.map PageResult.pageNumber).Nodup) :
    combinePagesToHtml pages info = combinePagesToHtml pages' info ∧
    (combineParts pages info).countP isContainerOpen = pages.length ∧
    List.Sorted (· ≤ ·) ((sortPages pages).map PageResult.pageNumber) ∧
    ((sortPages pages).map PageResult.pageNumber).Perm (pages.map PageResult.pageNumber) ∧
    ∀ p ∈ sortPages pages,
      pageHeaderLine p.pageNumber pages.length ∈ combineParts pages info := by
  have hsortEq := sortPages_eq_of_perm hperm hnd
  have hlen : (sortPages pages).length = pages.length :=
    (List.perm_insertionSort pageLE pages).length_eq
  refine ⟨?_, ?_, ?_, ?_, ?_⟩
  · unfold combinePagesToHtml combineParts
    rw [hsortEq]
  · unfold combineParts
    simp only [List.countP_append, countP_headerLines, countP_blocks]
    simp [footerLines, isContainerOpen, containerOpenMark, startsWithChars, hlen]
  · have hs : List.Sorted pageLE (sortPages pages) :=
      List.sorted_insertionSort pageLE pages
    exact (List.pairwise_map).2 hs
  · exact (List.perm_insertionSort pageLE pages).map PageResult.pageNumber
  · intro p hp
    unfold combineParts
    refine List.mem_append.2 (Or.inl (List.mem_append.2 (Or.inr ?_)))
    refine List.mem_flatten.2 ⟨pageBlockLines (sortPages pages).length p, ?_, ?_⟩
    · exact List.mem_map_of_mem _ hp
    · rw [hlen]
      simp [pageBlockLines]

def sampleResult1 : PageResult :=
  { pageNumber := 1, htmlContent := "<html><body>One</body></html>",
    refinementIterations := 1, finalQualityScore := 7,
    qualityProgression := some [7], originalDimensions := some (612, 792),
    pixelDimensions := some (1224, 1584), error := none }

def sampleResult2 : PageResult :=
  { pageNumber := 2, htmlContent := "<html><body>Two</body></html>",
    refinementIterations := 2, finalQualityScore := 8,
    qualityProgression := some [6, 8], originalDimensions := some (612, 792),
    pixelDimensions := some (1224, 1584), error := none }

theorem combine_permutation_invariant_witness :
    combinePagesToHtml [sampleResult2, sampleResult1] sampleInfo =
      combinePagesToHtml [sampleResult1, sampleResult2] sampleInfo ∧
    (combineParts [sampleResult2, sampleResult1] sampleInfo).countP isContainerOpen = 2 := by
  have h := combine_permutation_invariant [sampleResult2, sampleResult1]
    [sampleResult1, sampleResult2] sampleInfo
    (List.Perm.swap sampleResult1 sampleResult2 [])
    (by decide)
  exact ⟨h.1, h.2.1⟩

/-! ### C6: body extraction -/

/-- `needle` occurs as a substring of `hay` starting at index `i`. -/
def hasSubAt (needle hay : List Char) (i : Nat) : Prop :=
  needle.isPrefixOf (hay.drop i) = true

instance (needle hay : List Char) (i : Nat) : Decidable (hasSubAt needle hay i) :=
  inferInstanceAs (Decidable (_ = true))

theorem strFindPos_none (n : List Char) (l : List Char)
    (h : ∀ i, ¬ hasSubAt n l i) : strFindPos n l = none := by
  induction l with
  | nil =>
    have h0 : ¬ n.isPrefixOf ([] : List Char) = true := h 0
    rw [strFindPos, if_neg h0]
  | cons hd tl ih =>
    have h0 : ¬ n.isPrefixOf (hd :: tl) = true := h 0
    have htl : ∀ i, ¬ hasSubAt n tl i := fun i => h (i + 1)
    rw [strFindPos, if_neg h0, ih htl]
    rfl

theorem strFindPos_first (n : List Char) :
    ∀ (l : List Char) (i : Nat),
      hasSubAt n l i →
      (∀ k, k < i → ¬ hasSubAt n l k) →
      strFindPos n l = some i := by
  intro l
  induction l with
  | nil =>
    intro i hp hmin
    cases i with
    | zero =>
      have hp0 : n.isPrefixOf ([] : List Char) = true := hp
      rw [strFindPos, if_pos hp0]
    | succ j =>
      exact absurd hp (hmin 0 (Nat.succ_pos j))
  | cons hd tl ih =>
    intro i hp hmin
    cases i with
    | zero =>
      have hp0 : n.isPrefixOf (hd :: tl) = true := hp
      rw [strFindPos, if_pos hp0]
    | succ j =>
      have h0 : ¬ n.isPrefixOf (hd :: tl) = true := hmin 0 (Nat.succ_pos j)
      rw [strFindPos, if_neg h0,
        ih j hp (fun k hk => hmin (k + 1) (Nat.succ_lt_succ hk))]
      rfl

theorem strRFindPos_none (n : List Char) (l : List Char)
    (h : ∀ i, ¬ hasSubAt n l i) : strRFindPos n l = none := by
  induction l with
  | nil =>
    have h0 : ¬ n.isPrefixOf ([] : List Char) = true := h 0
    rw [strRFindPos, if_neg h0]
  | cons hd tl ih =>
    have h0 : ¬ n.isPrefixOf (hd :: tl) = true := h 0
    have htl : ∀ i, ¬ hasSubAt n tl i := fun i => h (i + 1)
    rw [strRFindPos, ih htl]
    exact if_neg h0

/-- An occurrence of a non-empty needle cannot start at or past the end of
the haystack. -/
theorem not_hasSubAt_of_length_le (c : Char) (n : List Char) (hay : List Char)
    (k : Nat) (hk : hay.length ≤ k) : ¬ hasSubAt (c :: n) hay k := by
  intro habs
  unfold hasSubAt at habs
  rw [List.drop_eq_nil_of_le hk] at habs
  simp [List.isPrefixOf] at habs

/-- Absence of a non-empty needle everywhere follows from its absence at
every in-range index. -/
theorem not_hasSubAt_everywhere (c : Char) (n : List Char) (hay : List Char)
    (hb : ∀ k, k < hay.length → ¬ hasSubAt (c :: n) hay k) :
    ∀ k, ¬ hasSubAt (c :: n) hay k := by
  intro k
  by_cases hk : k < hay.length
  · exact hb k hk
  · exact not_hasSubAt_of_length_le c n hay k (by omega)

/-- Absence of a non-empty needle beyond an index follows from its absence
at the in-range indices beyond it. -/
theorem not_hasSubAt_gt_of_bounded (c : Char) (n : List Char) (hay : List Char)
    (j : Nat) (hb : ∀ k, k < hay.length → j < k → ¬ hasSubAt (c :: n) hay k) :
    ∀ k, j < k → ¬ hasSubAt (c :: n) hay k := by
  intro k hjk
  by_cases hk : k < hay.length
  · exact hb k hk hjk
  · exact not_hasSubAt_of_length_le c n hay k (by omega)

theorem strRFindPos_last (n : List Char) :
    ∀ (l : List Char) (j : Nat),
      hasSubAt n l j →
      (∀ k, j < k → ¬ hasSubAt n l k) →
      strRFindPos n l = some j := by
  intro l
  induction l with
  | nil =>
    intro j hp hmax
    cases j with
    | zero =>
      have hp0 : n.isPrefixOf ([] : List Char) = true := hp
      rw [strRFindPos, if_pos hp0]
    | succ j' =>
      exact absurd (show hasSubAt n [] (j' + 2) from hp) (hmax (j' + 2) (by omega))
  | cons hd tl ih =>
    intro j hp hmax
    cases j with
    | zero =>
      have htl : ∀ i, ¬ hasSubAt n tl i := fun i hocc =>
        hmax (i + 1) (by omega) hocc
      have hp0 : n.isPrefixOf (hd :: tl) = true := hp
      rw [strRFindPos, strRFindPos_none n tl htl]
      exact if_pos hp0
    | succ j' =>
      have htl : hasSubAt n tl j' := hp
      have hmax' : ∀ k, j' < k → ¬ hasSubAt n tl k := fun k hk hocc =>
        hmax (k + 1) (by omega) hocc
      rw [strRFindPos, ih j' htl hmax']
      rfl

/-- Python's `find` of the closing `>` localized to the dropped haystack:
the first `>` at or after index `i` sits at offset `g - i` of
`f.data.drop i`. -/
theorem findGt_from_first (f : String) (i g : Nat)
    (hpg : hasSubAt ">".data f.data g) (hig : i ≤ g)
    (hming : ∀ k, i ≤ k → k < g → ¬ hasSubAt ">".data f.data k) :
    strFindPos ">".data (f.data.drop i) = some (g - i) := by
  apply strFindPos_first
  · have hgoal : (f.data.drop i).drop (g - i) = f.data.drop g := by
      rw [List.drop_drop]
      congr 1
      omega
    show ">".data.isPrefixOf ((f.data.drop i).drop (g - i)) = true
    rw [hgoal]
    exact hpg
  · intro k hk habs
    have habs' : ">".data.isPrefixOf ((f.data.drop i).drop k) = true := habs
    have hgoal : (f.data.drop i).drop k = f.data.drop (i + k) := by
      rw [List.drop_drop]
    rw [hgoal] at habs'
    exact hming (i + k) (by omega) (by omega) habs'

/-- C6: body extraction.  With the first `<body` at `i`, the first
following `>` at `g` and the last `</body>` at `j` (Python `rfind`), the
extracted content is the stripped slice strictly between the end of the
opening tag and the closing tag; a fragment with an opening body tag but
no `</body>` substring yields everything from just after the opening tag
to the end of the fragment, stripped; a fragment with no `<body` substring
is used verbatim. -/
theorem body_extraction_cases :
    (∀ f : String, (∀ i, ¬ hasSubAt "<body".data f.data i) →
       extractBodyContent f = f) ∧
    (∀ (f : String) (i g : Nat),
       hasSubAt "<body".data f.data i →
       (∀ k, k < i → ¬ hasSubAt "<body".data f.data k) →
       hasSubAt ">".data f.data g →
       i ≤ g →
       (∀ k, i ≤ k → k < g → ¬ hasSubAt ">".data f.data k) →
       (∀ k, ¬ hasSubAt "</body>".data f.data k) →
       extractBodyContent f = pyStrip ⟨f.data.drop (g + 1)⟩) ∧
    (∀ (f : String) (i g j : Nat),
       hasSubAt "<body".data f.data i →
       (∀ k, k < i → ¬ hasSubAt "<body".data f.data k) →
       hasSubAt ">".data f.data g →
       i ≤ g →
       (∀ k, i ≤ k → k < g → ¬ hasSubAt ">".data f.data k) →
       hasSubAt "</body>".data f.data j →
       (∀ k, j < k → ¬ hasSubAt "</body>".data f.data k) →
       extractBodyContent f =
         pyStrip ⟨(f.data.drop (g + 1)).take (j - (g + 1))⟩) := by
  refine ⟨?_, ?_, ?_⟩
  · intro f h
    have hfind : strFindPos "<body".data f.data = none := strFindPos_none _ _ h
    unfold extractBodyContent pyFind
    rw [hfind]
    simp
  · intro f i g hpi hmin hpg hig hming hnoend
    have hfind : strFindPos "<body".data f.data = some i := strFindPos_first _ _ i hpi hmin
    have hfindGt : strFindPos ">".data (f.data.drop i) = some (g - i) :=
      findGt_from_first f i g hpg hig hming
    have hrfind : strRFindPos "</body>".data f.data = none := strRFindPos_none _ _ hnoend
    unfold extractBodyContent pyFind pyFindFrom pyRFind
    rw [hfind, hrfind]
    simp only [Int.toNat_natCast, hfindGt]
    have hii : (i : Int) ≠ -1 := by omega
    rw [if_pos hii]
    have hsum : i + (g - i) = g := by omega
    rw [hsum]
    have hne : ¬ ((-1 : Int) ≠ -1) := by omega
    rw [if_neg hne]
    have htn : ((g : Int) + 1).toNat = g + 1 := by omega
    rw [htn]
    rfl
  · intro f i g j hpi hmin hpg hig hming hpj hmax
    have hfind : strFindPos "<body".data f.data = some i := strFindPos_first _ _ i hpi hmin
    have hfindGt : strFindPos ">".data (f.data.drop i) = some (g - i) :=
      findGt_from_first f i g hpg hig hming
    have hrfind : strRFindPos "</body>".data f.data = some j :=
      strRFindPos_last _ _ j hpj hmax
    unfold extractBodyContent pyFind pyFindFrom pyRFind
    rw [hfind, hrfind]
    simp only [Int.toNat_natCast, hfindGt]
    have hii : (i : Int) ≠ -1 := by omega
    rw [if_pos hii]
    have hsum : i + (g - i) = g := by omega
    rw [hsum]
    have hjj : (j : Int) ≠ -1 := by omega
    rw [if_pos hjj]
    have htn : ((g : Int) + 1).toNat = g + 1 := by omega
    rw [htn]
    rfl

theorem body_extraction_cases_witness :
    extractBodyContent "<p>no body tag</p>" = "<p>no body tag</p>" ∧
    extractBodyContent "<body class=x>hello " = "hello" ∧
    extractBodyContent "<body> mid </body>" = "mid" := by
  refine ⟨?_, ?_, ?_⟩
  · apply body_extraction_cases.1
    apply not_hasSubAt_everywhere
    decide
  · have h := body_extraction_cases.2.1 "<body class=x>hello " 0 13
      (by decide)
      (fun k hk => absurd hk (Nat.not_lt_zero k))
      (by decide)
      (Nat.zero_le 13)
      (fun k _ hk =>
        (by decide : ∀ k, k < 13 → ¬ hasSubAt ">".data "<body class=x>hello ".data k) k hk)
      (not_hasSubAt_everywhere _ _ _ (by decide))
    rw [h]
    rfl
  · have h := body_extraction_cases.2.2 "<body> mid </body>" 0 5 11
      (by decide)
      (fun k hk => absurd hk (Nat.not_lt_zero k))
      (by decide)
      (Nat.zero_le 5)
      (fun k _ hk =>
        (by decide : ∀ k, k < 5 → ¬ hasSubAt ">".data "<body> mid </body>".data k) k hk)
      (by decide)
      (not_hasSubAt_gt_of_bounded '<' "/body>".data "<body> mid </body>".data 11
        (fun k hlen hk =>
          (by decide : ∀ k, k < 18 → 11 < k →
            ¬ hasSubAt "</body>".data "<body> mid </body>".data k) k hlen hk))
    rw [h]
    rfl

end PdfToHtml
